import Mathlib

/-!
Shallow embedding of the configuration loader (src/config.rs) and of the TCP
connection supervisor (src/tcp_server.rs) of the shoes-on-shuttle proxy
server, together with theorems settling the specification claims against it.

Pure data shapes and functions are translated directly from the Rust source.
Asynchronous I/O (socket reads and writes, DNS resolution, byte copying) is
modelled by an environment of oracles giving the outcome of each awaited
operation, and the side effects of the supervisor are recorded as an event
trace. Types that live in repository files not provided under src/
(option_util.rs, address.rs, client_proxy_selector.rs, tcp_handler.rs) are
modelled from the specification and marked as such in their doc comments.
-/

namespace Shoes

/-- Kinds of std::io::ErrorKind that the embedded code constructs. -/
inductive ErrorKind where
  | invalidInput
  | timedOut
  | otherKind
deriving DecidableEq, Repr

/-- Model of std::io::Error: an error kind together with a message. -/
structure IOError where
  kind : ErrorKind
  msg : String
deriving DecidableEq, Repr

/-- Outcome of running modelled Rust code that can return a value, fail with a
std::io::Error, or panic (for example via ConfigSelection::unwrap_config). -/
inductive RResult (α : Type) where
  | ok (a : α)
  | err (e : IOError)
  | panicked (msg : String)
deriving Repr

instance : Monad RResult where
  pure := RResult.ok
  bind := fun r f =>
    match r with
    | .ok a => f a
    | .err e => .err e
    | .panicked m => .panicked m

/-- Lift a fallible (non-panicking) result, as produced by functions returning
std::io::Result, into RResult. -/
def liftE {α : Type} : Except IOError α → RResult α
  | .ok a => .ok a
  | .error e => .err e

/-- Modelled from the spec: option_util.rs is not among the provided sources.
NoneOrOne holds zero or one value; the source distinguishes an unspecified
field from an explicit none (config.rs uses both NoneOrOne::Unspecified and
NoneOrOne::None, and NoneOrOne::is_one). -/
inductive NoneOrOne (α : Type) where
  | unspecified
  | none
  | one (a : α)
deriving Repr

/-- Whether a NoneOrOne holds a value (NoneOrOne::is_one). -/
def NoneOrOne.is_one {α : Type} : NoneOrOne α → Bool
  | .one _ => true
  | _ => false

/-- Modelled from the spec: option_util.rs is not among the provided sources.
NoneOrSome holds zero or more values (config.rs uses NoneOrSome::Unspecified,
NoneOrSome::One and NoneOrSome::Some, plus is_empty, iter, map and into_vec). -/
inductive NoneOrSome (α : Type) where
  | unspecified
  | one (a : α)
  | some (l : List α)
deriving Repr

/-- The values held by a NoneOrSome, in order (its iter / into_vec view). -/
def NoneOrSome.toList {α : Type} : NoneOrSome α → List α
  | .unspecified => []
  | .one a => [a]
  | .some l => l

/-- NoneOrSome::is_empty. -/
def NoneOrSome.is_empty {α : Type} (s : NoneOrSome α) : Bool :=
  s.toList.isEmpty

/-- NoneOrSome::map, preserving the constructor shape. -/
def NoneOrSome.map {α β : Type} (f : α → β) : NoneOrSome α → NoneOrSome β
  | .unspecified => .unspecified
  | .one a => .one (f a)
  | .some l => .some (l.map f)

/-- Modelled from the spec: option_util.rs is not among the provided sources.
OneOrSome holds one or more values (a single value or a list). -/
inductive OneOrSome (α : Type) where
  | one (a : α)
  | some (l : List α)
deriving Repr

/-- The values held by a OneOrSome, in order (its iter / into_vec view). -/
def OneOrSome.toList {α : Type} : OneOrSome α → List α
  | .one a => [a]
  | .some l => l

/-- Modelled from the spec: address.rs is not among the provided sources. A
host is a literal IP address (abstracted to its numeric value) or a DNS name. -/
inductive Host where
  | ip (addr : Nat)
  | name (s : String)
deriving DecidableEq, Repr

/-- Modelled from the spec: a NetLocation is a pair of host and 16-bit port. -/
structure NetLocation where
  host : Host
  port : Nat
deriving DecidableEq, Repr

/-- Modelled from the spec: the UNSPECIFIED sentinel representing 0.0.0.0:0. -/
def NetLocation.UNSPECIFIED : NetLocation :=
  { host := .ip 0, port := 0 }

/-- Modelled from the spec: a NetLocationMask is an address prefix, a prefix
length and a port mask, with a sentinel ANY matching every location. -/
structure NetLocationMask where
  address : Nat
  prefix_length : Nat
  port : Nat
deriving DecidableEq, Repr

/-- Modelled from the spec: the ANY mask (written any in config files). -/
def NetLocationMask.ANY : NetLocationMask :=
  { address := 0, prefix_length := 0, port := 0 }

/-- BindLocation from config.rs: a socket address or a filesystem path. -/
inductive BindLocation where
  | address (n : NetLocation)
  | path (p : String)
deriving DecidableEq, Repr

/-- Transport from config.rs. -/
inductive Transport where
  | tcp
  | quic
  | udp
deriving DecidableEq, Repr

/-- Default for Transport is TCP. -/
def Transport.default : Transport := .tcp

/-- TcpConfig from config.rs. -/
structure TcpConfig where
  no_delay : Bool
deriving DecidableEq, Repr

/-- Default for TcpConfig: no_delay is true. -/
def TcpConfig.default : TcpConfig :=
  { no_delay := true }

/-- ServerQuicConfig from config.rs. -/
structure ServerQuicConfig where
  cert : String
  key : String
  alpn_protocols : NoneOrSome String
deriving Repr

/-- ClientQuicConfig from config.rs. -/
structure ClientQuicConfig where
  verify : Bool
  sni_hostname : NoneOrOne String
  alpn_protocols : NoneOrSome String
deriving Repr

/-- ShadowsocksConfig from config.rs. -/
structure ShadowsocksConfig where
  cipher : String
  password : String
deriving DecidableEq, Repr

/-- WebsocketPingType from config.rs. -/
inductive WebsocketPingType where
  | disabled
  | pingFrame
  | emptyFrame
deriving DecidableEq, Repr

/-- ConfigSelection from config.rs: an inline value or a named group. -/
inductive ConfigSelection (α : Type) where
  | config (a : α)
  | groupName (s : String)
deriving Repr

/-- ConfigSelection::unwrap_config, which panics on a GroupName. -/
def ConfigSelection.unwrap_config {α : Type} : ConfigSelection α → RResult α
  | .config c => .ok c
  | .groupName _ => .panicked "Tried to unwrap a ConfigSelection::GroupName"

/-- Lookup in the association-list model of a HashMap keyed by group name. -/
def alistGet {α : Type} (m : List (String × α)) (k : String) : Option α :=
  match m with
  | [] => none
  | (k2, v) :: rest => if k2 = k then some v else alistGet rest k

/-- HashMap::insert on the association-list model: stores the value and
returns the previous value under the key, if there was one. -/
def alistInsert {α : Type} (m : List (String × α)) (k : String) (v : α) :
    Option α × List (String × α) :=
  match m with
  | [] => (none, [(k, v)])
  | (k2, v2) :: rest =>
    if k2 = k then (some v2, (k2, v) :: rest)
    else
      let r := alistInsert rest k v
      (r.1, (k2, v2) :: r.2)

/-- ConfigSelection::replace from config.rs: walk the selections in order,
keep each inline Config, and inline the configs of each named group looked up
in the group map; an unknown group name is an InvalidInput error. -/
def ConfigSelection.replace {α : Type} (l : List (ConfigSelection α))
    (groups : List (String × List α)) : Except IOError (List (ConfigSelection α)) :=
  match l with
  | [] => .ok []
  | .config c :: rest => do
    let r ← ConfigSelection.replace rest groups
    pure (.config c :: r)
  | .groupName g :: rest =>
    match alistGet groups g with
    | some configs => do
      let r ← ConfigSelection.replace rest groups
      pure (configs.map ConfigSelection.config ++ r)
    | none => .error { kind := .invalidInput, msg := "No such client group: " ++ g }

/-- ConfigSelection::replace_none_or_some_groups from config.rs: an empty
selection list is returned unchanged, otherwise the replaced list is stored
back as NoneOrSome::Some. -/
def ConfigSelection.replace_none_or_some_groups {α : Type}
    (selections : NoneOrSome (ConfigSelection α)) (groups : List (String × List α)) :
    Except IOError (NoneOrSome (ConfigSelection α)) :=
  if selections.is_empty then .ok selections
  else do
    let ret ← ConfigSelection.replace selections.toList groups
    pure (.some ret)

/-- ConfigSelection::replace_one_or_some_groups from config.rs: the replaced
list is stored back as OneOrSome::Some unconditionally. -/
def ConfigSelection.replace_one_or_some_groups {α : Type}
    (selections : OneOrSome (ConfigSelection α)) (groups : List (String × List α)) :
    Except IOError (OneOrSome (ConfigSelection α)) := do
  let ret ← ConfigSelection.replace selections.toList groups
  pure (.some ret)

/-- The first group name in a selection list that the group map does not
define, if any; replace fails exactly on such a list. -/
def firstMissingGroup {α : Type} (l : List (ConfigSelection α))
    (groups : List (String × List α)) : Option String :=
  match l with
  | [] => none
  | .config _ :: rest => firstMissingGroup rest groups
  | .groupName g :: rest =>
    match alistGet groups g with
    | some _ => firstMissingGroup rest groups
    | none => some g

/-- Expansion as the specification words it: each GroupName is replaced by the
inlined sequence of the named group's configs at its position, and every
inline Config selection is kept unchanged in the surrounding order. -/
def specExpand {α : Type} (l : List (ConfigSelection α))
    (groups : List (String × List α)) : List (ConfigSelection α) :=
  l.flatMap fun s =>
    match s with
    | .config c => [.config c]
    | .groupName g => ((alistGet groups g).getD []).map ConfigSelection.config

mutual

/-- ClientProxyConfig from config.rs, with the TLS and WebSocket client
wrappers carrying a nested protocol. -/
inductive ClientProxyConfig where
  | direct
  | http (username password : Option String)
  | socks (username password : Option String)
  | shadowsocks (c : ShadowsocksConfig)
  | snell (c : ShadowsocksConfig)
  | vless (user_id : String)
  | trojan (password : String) (shadowsocks : Option ShadowsocksConfig)
  | tls (c : TlsClientConfig)
  | vmess (cipher user_id : String) (aead : Bool)
  | websocket (c : WebsocketClientConfig)

/-- TlsClientConfig from config.rs. -/
inductive TlsClientConfig where
  | mk (verify : Bool) (sni_hostname : NoneOrOne String)
      (alpn_protocols : NoneOrSome String) (protocol : ClientProxyConfig)

/-- WebsocketClientConfig from config.rs. -/
inductive WebsocketClientConfig where
  | mk (matching_path : Option String)
      (matching_headers : Option (List (String × String)))
      (ping_type : WebsocketPingType) (protocol : ClientProxyConfig)

end

/-- ClientConfig from config.rs. -/
structure ClientConfig where
  bind_interface : NoneOrOne String
  address : NetLocation
  protocol : ClientProxyConfig
  transport : Transport
  tcp_settings : Option TcpConfig
  quic_settings : Option ClientQuicConfig

/-- Default for ClientConfig: Direct protocol over TCP with unspecified bind. -/
def ClientConfig.default : ClientConfig :=
  { bind_interface := .none
    address := NetLocation.UNSPECIFIED
    protocol := .direct
    transport := Transport.default
    tcp_settings := none
    quic_settings := none }

/-- RuleActionConfig from config.rs: allow (with optional override address and
client proxy selections) or block. -/
inductive RuleActionConfig where
  | allow (override_address : Option NetLocation)
      (client_proxies : OneOrSome (ConfigSelection ClientConfig))
  | block

/-- RuleConfig from config.rs. -/
structure RuleConfig where
  masks : OneOrSome NetLocationMask
  action : RuleActionConfig

/-- Default for RuleConfig: allow any location through the default client. -/
def RuleConfig.default : RuleConfig :=
  { masks := .one NetLocationMask.ANY
    action := .allow none (.one (.config ClientConfig.default)) }

mutual

/-- ServerProxyConfig from config.rs, with the TLS and WebSocket server
wrappers carrying nested protocols and override rules. -/
inductive ServerProxyConfig where
  | http (username password : Option String)
  | socks (username password : Option String)
  | shadowsocks (c : ShadowsocksConfig)
  | snell (c : ShadowsocksConfig)
  | vless (user_id : String)
  | trojan (password : String) (shadowsocks : Option ShadowsocksConfig)
  | tls (sni_targets : List (String × TlsServerConfig))
      (default_target : Option TlsServerConfig)
  | vmess (cipher user_id : String) (force_aead udp_enabled : Bool)
  | websocket (targets : OneOrSome WebsocketServerConfig)
  | portForward (targets : OneOrSome NetLocation)

/-- TlsServerConfig from config.rs: one TLS SNI target. -/
inductive TlsServerConfig where
  | mk (cert key : String) (alpn_protocols : NoneOrSome String)
      (protocol : ServerProxyConfig)
      (override_rules : NoneOrSome (ConfigSelection RuleConfig))

/-- WebsocketServerConfig from config.rs: one WebSocket target. -/
inductive WebsocketServerConfig where
  | mk (matching_path : Option String)
      (matching_headers : Option (List (String × String)))
      (protocol : ServerProxyConfig) (ping_type : WebsocketPingType)
      (override_rules : NoneOrSome (ConfigSelection RuleConfig))

end

/-- ServerConfig from config.rs: one listener. -/
structure ServerConfig where
  bind_location : BindLocation
  protocol : ServerProxyConfig
  transport : Transport
  tcp_settings : Option TcpConfig
  quic_settings : Option ServerQuicConfig
  rules : NoneOrSome (ConfigSelection RuleConfig)

/-- The default rule list seeded when a server specifies none
(direct_allow_rule in config.rs). -/
def direct_allow_rule : NoneOrSome (ConfigSelection RuleConfig) :=
  .one (.config RuleConfig.default)

/-- Config from config.rs: one top-level document entry. -/
inductive Config where
  | serverConfig (sc : ServerConfig)
  | clientConfigGroup (client_group : String) (client_proxies : OneOrSome ClientConfig)
  | ruleConfigGroup (rule_group : String) (rules : OneOrSome RuleConfig)

/-- The client group map built by load_configs, keyed by group name. -/
abbrev ClientGroups := List (String × List ClientConfig)

/-- The rule group map built by load_configs, keyed by group name. -/
abbrev RuleGroups := List (String × List RuleConfig)

/-- The client group map as load_configs seeds it: the built-in direct group. -/
def seededClientGroups : ClientGroups :=
  [("direct", [ClientConfig.default])]

/-- The rule group map as load_configs seeds it: the built-in allow-all-direct
and block-all groups. -/
def seededRuleGroups : RuleGroups :=
  [("allow-all-direct",
    [{ masks := .one NetLocationMask.ANY
       action := .allow none (.one (.config ClientConfig.default)) }]),
   ("block-all",
    [{ masks := .one NetLocationMask.ANY
       action := .block }])]

/-- The registration loop of load_configs: walk the parsed entries in order,
registering each group into its map (a duplicate name is an InvalidInput
error) and collecting the server configs in order. -/
def registerConfigs (cfgs : List Config) (client_groups : ClientGroups)
    (rule_groups : RuleGroups) (server_configs : List ServerConfig) :
    RResult (ClientGroups × RuleGroups × List ServerConfig) :=
  match cfgs with
  | [] => .ok (client_groups, rule_groups, server_configs)
  | .clientConfigGroup name proxies :: rest =>
    let r := alistInsert client_groups name proxies.toList
    if r.1.isSome then
      .err { kind := .invalidInput, msg := "client group already exists: " ++ name }
    else
      registerConfigs rest r.2 rule_groups server_configs
  | .ruleConfigGroup name rules :: rest =>
    let r := alistInsert rule_groups name rules.toList
    if r.1.isSome then
      .err { kind := .invalidInput, msg := "rule group already exists: " ++ name }
    else
      registerConfigs rest client_groups r.2 server_configs
  | .serverConfig sc :: rest =>
    registerConfigs rest client_groups rule_groups (server_configs ++ [sc])

/-- validate_client_config from config.rs. The compile-time cfg gate on
bind_interface (Android, Fuchsia or Linux only) is modelled by the
is_linux_family flag. -/
def validate_client_config (is_linux_family : Bool) (client_config : ClientConfig) :
    RResult Unit :=
  if client_config.transport ≠ .tcp ∧ client_config.tcp_settings.isSome then
    .err { kind := .invalidInput
           msg := "TCP transport is not selected but TCP settings specified" }
  else if client_config.transport ≠ .quic ∧ client_config.quic_settings.isSome then
    .err { kind := .invalidInput
           msg := "QUIC transport is not selected but QUIC settings specified" }
  else if ¬is_linux_family ∧ client_config.bind_interface.is_one then
    .err { kind := .invalidInput
           msg := "bind_interface is only available on Android, Fuchsia, or Linux." }
  else
    .ok ()

/-- Sequential iteration of a fallible body over a list, stopping at the
first error or panic, as a Rust for loop over iter_mut does. -/
def mapMR {α β : Type} (f : α → RResult β) : List α → RResult (List β)
  | [] => .ok []
  | a :: rest => do
    let b ← f a
    let rest2 ← mapMR f rest
    pure (b :: rest2)

/-- One iteration of the client selection loop in validate_rule_config:
unwrap_config_mut (panics on a GroupName) then validate_client_config, which
leaves the config unchanged. -/
def validateClientSelection (is_linux_family : Bool) :
    ConfigSelection ClientConfig → RResult (ConfigSelection ClientConfig)
  | .config c => do
    let _ ← validate_client_config is_linux_family c
    pure (.config c)
  | .groupName _ => .panicked "Tried to unwrap a ConfigSelection::GroupName"

/-- The iter_mut loop over the client proxy selections of an Allow action,
preserving the constructor shape as in-place mutation does. -/
def validateClientSelections (is_linux_family : Bool) :
    OneOrSome (ConfigSelection ClientConfig) →
    RResult (OneOrSome (ConfigSelection ClientConfig))
  | .one a => do
    pure (OneOrSome.one (← validateClientSelection is_linux_family a))
  | .some l => do
    pure (OneOrSome.some (← mapMR (validateClientSelection is_linux_family) l))

/-- validate_rule_config from config.rs: for an Allow action, replace client
proxy groups and validate each resulting client config in place. -/
def validate_rule_config (is_linux_family : Bool) (rule_config : RuleConfig)
    (client_groups : ClientGroups) : RResult RuleConfig :=
  match rule_config.action with
  | .allow override_address client_proxies => do
    let replaced ← liftE
      (ConfigSelection.replace_one_or_some_groups client_proxies client_groups)
    let checked ← validateClientSelections is_linux_family replaced
    pure { rule_config with action := .allow override_address checked }
  | .block => pure rule_config

/-- One iteration of the rule selection loop in validate_server_config and
validate_server_proxy_config: unwrap_config_mut (panics on a GroupName) then
validate_rule_config, storing the updated rule back. -/
def validateRuleSelection (is_linux_family : Bool) (client_groups : ClientGroups) :
    ConfigSelection RuleConfig → RResult (ConfigSelection RuleConfig)
  | .config r => do
    pure (.config (← validate_rule_config is_linux_family r client_groups))
  | .groupName _ => .panicked "Tried to unwrap a ConfigSelection::GroupName"

/-- The iter_mut loop over a NoneOrSome of rule selections, preserving the
constructor shape as in-place mutation does. -/
def validateRuleSelections (is_linux_family : Bool) (client_groups : ClientGroups) :
    NoneOrSome (ConfigSelection RuleConfig) →
    RResult (NoneOrSome (ConfigSelection RuleConfig))
  | .unspecified => pure .unspecified
  | .one a => do pure (NoneOrSome.one (← validateRuleSelection is_linux_family client_groups a))
  | .some l => do
    pure (NoneOrSome.some (← mapMR (validateRuleSelection is_linux_family client_groups) l))

mutual

/-- validate_server_proxy_config from config.rs: recurse into the nested
protocol of every TLS sni_target and default_target and of every WebSocket
target, replacing override rule groups and validating the resulting rules;
every other protocol variant is left unchanged. -/
def validate_server_proxy_config (is_linux_family : Bool)
    (client_groups : ClientGroups) (rule_groups : RuleGroups) :
    ServerProxyConfig → RResult ServerProxyConfig
  | .tls sni_targets default_target => do
    let st ← validateTlsTargets is_linux_family client_groups rule_groups sni_targets
    match default_target with
    | some t => do
      let t2 ← validateTlsTarget is_linux_family client_groups rule_groups t
      pure (.tls st (some t2))
    | none => pure (.tls st none)
  | .websocket targets =>
    match targets with
    | .one t => do
      pure (ServerProxyConfig.websocket
        (.one (← validateWsTarget is_linux_family client_groups rule_groups t)))
    | .some l => do
      pure (ServerProxyConfig.websocket
        (.some (← validateWsTargets is_linux_family client_groups rule_groups l)))
  | other => pure other

/-- The iteration over the sni_targets map entries. -/
def validateTlsTargets (is_linux_family : Bool) (client_groups : ClientGroups)
    (rule_groups : RuleGroups) :
    List (String × TlsServerConfig) → RResult (List (String × TlsServerConfig))
  | [] => pure []
  | (name, t) :: rest => do
    let t2 ← validateTlsTarget is_linux_family client_groups rule_groups t
    let rest2 ← validateTlsTargets is_linux_family client_groups rule_groups rest
    pure ((name, t2) :: rest2)

/-- The body run for one TLS target: validate the nested protocol, replace
override rule groups, then validate each override rule in place. -/
def validateTlsTarget (is_linux_family : Bool) (client_groups : ClientGroups)
    (rule_groups : RuleGroups) : TlsServerConfig → RResult TlsServerConfig
  | .mk cert key alpn_protocols protocol override_rules => do
    let p ← validate_server_proxy_config is_linux_family client_groups rule_groups protocol
    let or1 ← liftE (ConfigSelection.replace_none_or_some_groups override_rules rule_groups)
    let or2 ← validateRuleSelections is_linux_family client_groups or1
    pure (.mk cert key alpn_protocols p or2)

/-- The iteration over a list of WebSocket targets. -/
def validateWsTargets (is_linux_family : Bool) (client_groups : ClientGroups)
    (rule_groups : RuleGroups) :
    List WebsocketServerConfig → RResult (List WebsocketServerConfig)
  | [] => pure []
  | t :: rest => do
    let t2 ← validateWsTarget is_linux_family client_groups rule_groups t
    let rest2 ← validateWsTargets is_linux_family client_groups rule_groups rest
    pure (t2 :: rest2)

/-- The body run for one WebSocket target: validate the nested protocol,
replace override rule groups, then validate each override rule in place. -/
def validateWsTarget (is_linux_family : Bool) (client_groups : ClientGroups)
    (rule_groups : RuleGroups) : WebsocketServerConfig → RResult WebsocketServerConfig
  | .mk matching_path matching_headers protocol ping_type override_rules => do
    let p ← validate_server_proxy_config is_linux_family client_groups rule_groups protocol
    let or1 ← liftE (ConfigSelection.replace_none_or_some_groups override_rules rule_groups)
    let or2 ← validateRuleSelections is_linux_family client_groups or1
    pure (.mk matching_path matching_headers p ping_type or2)

end

/-- Whether a BindLocation is the filesystem-path variant. -/
def BindLocation.isPath : BindLocation → Bool
  | .path _ => true
  | .address _ => false

/-- validate_server_config from config.rs: the transport coherence checks in
source order, then rule group expansion, default rule injection, rule
validation and recursion into the protocol. -/
def validate_server_config (is_linux_family : Bool) (server_config : ServerConfig)
    (client_groups : ClientGroups) (rule_groups : RuleGroups) : RResult ServerConfig :=
  if server_config.transport ≠ Transport.tcp ∧ server_config.tcp_settings.isSome then
    .err { kind := .invalidInput
           msg := "TCP transport is not selected but TCP settings specified" }
  else if server_config.transport = Transport.quic ∧ server_config.quic_settings.isNone then
    .err { kind := .invalidInput
           msg := "QUIC transport is selected but QUIC settings not specified" }
  else if server_config.transport ≠ Transport.quic ∧ server_config.quic_settings.isSome then
    .err { kind := .invalidInput
           msg := "QUIC transport is not selected but QUIC settings specified" }
  else if server_config.bind_location.isPath ∧ server_config.transport ≠ Transport.tcp then
    .err { kind := .invalidInput
           msg := "Unix domain socket support only available for TCP transport" }
  else do
    let rules1 ← liftE
      (ConfigSelection.replace_none_or_some_groups server_config.rules rule_groups)
    let rules3 ← validateRuleSelections is_linux_family client_groups
      (if rules1.is_empty then direct_allow_rule else rules1)
    let protocol2 ← validate_server_proxy_config is_linux_family client_groups rule_groups
      server_config.protocol
    pure { server_config with rules := rules3, protocol := protocol2 }

/-- load_configs from config.rs, modelled from the point where the YAML
documents have been parsed and concatenated into a list of Config entries
(file reading and YAML decoding are external per the spec): seed the group
maps, register groups and collect servers, then validate every server. -/
def load_configs (is_linux_family : Bool) (all_configs : List Config) :
    RResult (List ServerConfig) := do
  let r ← registerConfigs all_configs seededClientGroups seededRuleGroups []
  mapMR (fun sc => validate_server_config is_linux_family sc r.1 r.2.1) r.2.2

/-- The rule-handling prologue of start_tcp_server in tcp_server.rs: map
unwrap_config over the rule selections (panicking on any GroupName) and
assert that the resulting list is non-empty (panicking otherwise). -/
def start_tcp_server_prologue (config : ServerConfig) : RResult (List RuleConfig) := do
  let rules ← mapMR ConfigSelection.unwrap_config config.rules.toList
  if rules.isEmpty then
    .panicked "assertion failed: the rules list is empty"
  else
    pure rules

/-- Whether a client selection is the inline Config variant. -/
def clientSelectionInline : ConfigSelection ClientConfig → Bool
  | .config _ => true
  | .groupName _ => false

/-- Whether a rule selection is the inline Config variant whose Allow action,
if any, holds only inline client selections. -/
def ruleSelectionInline : ConfigSelection RuleConfig → Bool
  | .config r =>
    match r.action with
    | .allow _ client_proxies => client_proxies.toList.all clientSelectionInline
    | .block => true
  | .groupName _ => false

mutual

/-- Whether every ConfigSelection nested anywhere in a ServerProxyConfig
(override rules of TLS and WebSocket targets at any depth, and the client
selections inside them) is inline. -/
def spcAllInline : ServerProxyConfig → Bool
  | .tls sni_targets default_target =>
    tlsTargetsAllInline sni_targets &&
      (match default_target with
       | some t => tlsTargetAllInline t
       | none => true)
  | .websocket targets =>
    (match targets with
     | .one t => wsTargetAllInline t
     | .some l => wsTargetsAllInline l)
  | _ => true

/-- Conjunction of tlsTargetAllInline over the sni_targets entries. -/
def tlsTargetsAllInline : List (String × TlsServerConfig) → Bool
  | [] => true
  | (_, t) :: rest => tlsTargetAllInline t && tlsTargetsAllInline rest

/-- Whether a TLS target holds only inline selections. -/
def tlsTargetAllInline : TlsServerConfig → Bool
  | .mk _ _ _ protocol override_rules =>
    spcAllInline protocol && override_rules.toList.all ruleSelectionInline

/-- Conjunction of wsTargetAllInline over a target list. -/
def wsTargetsAllInline : List WebsocketServerConfig → Bool
  | [] => true
  | t :: rest => wsTargetAllInline t && wsTargetsAllInline rest

/-- Whether a WebSocket target holds only inline selections. -/
def wsTargetAllInline : WebsocketServerConfig → Bool
  | .mk _ _ protocol _ override_rules =>
    spcAllInline protocol && override_rules.toList.all ruleSelectionInline

end

/-- Whether every ConfigSelection reachable in a ServerConfig is inline: its
rule list, the client selections of each rule, and everything nested in its
protocol tree. -/
def serverConfigAllInline (sc : ServerConfig) : Bool :=
  sc.rules.toList.all ruleSelectionInline && spcAllInline sc.protocol

/-- The transport coherence invariant of a ServerConfig (spec section 3). -/
def transportCoherent (sc : ServerConfig) : Prop :=
  (sc.transport = Transport.quic ↔ sc.quic_settings.isSome) ∧
  (sc.tcp_settings.isSome → sc.transport = Transport.tcp) ∧
  (sc.bind_location.isPath = true → sc.transport = Transport.tcp)

/-- Modelled from the spec: an egress client proxy (TcpClientConnector),
abstracted to an identity; its connect and configure_udp_socket operations
are supplied as oracles of the supervisor environment. -/
structure TcpClientConnector where
  id : Nat
deriving DecidableEq, Repr

/-- Modelled from the spec: ConnectDecision of the client proxy selector,
either Allow with a chosen client proxy and remote location, or Block. -/
inductive ConnectDecision where
  | allow (client_proxy : TcpClientConnector) (remote_location : NetLocation)
  | block
deriving DecidableEq, Repr

/-- Modelled from the spec: the ClientProxySelector interface the supervisor
consults, with judge (per-target decision, fallible) and default_decision
(the decision used when there is no single target). -/
structure ClientProxySelector where
  judge : NetLocation → Except IOError ConnectDecision
  default_decision : ConnectDecision

/-- Modelled from the spec: TcpServerSetupResult of tcp_handler.rs as it is
consumed by process_stream; the peeled stream itself is a runtime handle and
is left abstract, while its shutdowns appear in the event trace. -/
inductive TcpServerSetupResult where
  | tcpForward (remote_location : NetLocation) (need_initial_flush : Bool)
      (override_proxy_provider : NoneOrOne ClientProxySelector)
      (connection_success_response : Option (List Nat))
      (initial_remote_data : Option (List Nat))
  | bidirectionalUdpForward (remote_location : NetLocation)
  | multidirectionalUdpForward (need_initial_flush : Bool)

/-- Observable actions of one process_stream run, recorded in order. -/
inductive Event where
  | judgeCalled (target : NetLocation)
  | defaultDecisionCalled
  | connectCalled (proxy : TcpClientConnector) (remote : NetLocation)
  | udpSocketConfigured
  | udpSocketConnected
  | serverShutdown
  | clientShutdown
  | warnLogged
  | writeResponseAttempted
  | writeInitialDataAttempted
  | copyBidirectional
  | copyBidirectionalMessage
  | copyMultidirectionalMessage
deriving DecidableEq, Repr

/-- Oracles for the awaited operations of one process_stream run: how long
the two setup futures take (the supervisor wraps each in a 60 second
timeout), and the outcome of each external call. A timed-out future is
cancelled, so its pending effects are discarded from the trace. -/
structure Env where
  server_setup_secs : Nat
  server_setup : Except IOError TcpServerSetupResult
  client_setup_secs : Nat
  connect_result : Except IOError Unit
  resolve_result : Except IOError Nat
  configure_udp : Except IOError Unit
  udp_connect : Except IOError Unit
  write_response : Except IOError Unit
  write_initial_data : Except IOError Unit
  copy_result : Except IOError Unit

/-- The selector selection at the top of the TcpForward arm of
process_stream: a present override_proxy_provider (from inner TLS or
WebSocket override rules) wins over the listener selector. -/
def effective_selector (override_proxy_provider : NoneOrOne ClientProxySelector)
    (listener_selector : ClientProxySelector) : ClientProxySelector :=
  match override_proxy_provider with
  | .one p => p
  | _ => listener_selector

/-- setup_client_stream from tcp_server.rs: judge the target; on Allow dial
through the chosen client proxy (Some stream on success), on Block return
None without any connection attempt. -/
def setup_client_stream (env : Env) (client_proxy_selector : ClientProxySelector)
    (remote_location : NetLocation) : Except IOError (Option Unit) × List Event :=
  match client_proxy_selector.judge remote_location with
  | .error e => (.error e, [.judgeCalled remote_location])
  | .ok (.allow client_proxy remote2) =>
    (match env.connect_result with
     | .ok _ => (.ok (some ()), [.judgeCalled remote_location, .connectCalled client_proxy remote2])
     | .error e => (.error e, [.judgeCalled remote_location, .connectCalled client_proxy remote2]))
  | .ok .block => (.ok none, [.judgeCalled remote_location])

/-- The tail of the TcpForward arm once a client stream is up: write the
success response back if any, forward the initial remote data if any, run the
bidirectional copy, shut both streams down, and propagate the copy outcome. -/
def tcp_forward_bridge (env : Env)
    (connection_success_response initial_remote_data : Option (List Nat)) :
    Except IOError Unit × List Event :=
  let step1 : Except IOError Unit × List Event :=
    match connection_success_response with
    | some _ => (env.write_response, [.writeResponseAttempted])
    | none => (.ok (), [])
  match step1.1 with
  | .error e => (.error e, step1.2)
  | .ok _ =>
    let step2 : Except IOError Unit × List Event :=
      match initial_remote_data with
      | some _ => (env.write_initial_data, [.writeInitialDataAttempted])
      | none => (.ok (), [])
    match step2.1 with
    | .error e => (.error e, step1.2 ++ step2.2)
    | .ok _ =>
      (env.copy_result,
       step1.2 ++ step2.2 ++ [.copyBidirectional, .serverShutdown, .clientShutdown])

/-- process_stream from tcp_server.rs: run the server handshake under a 60
second timeout, then branch on the setup result. TcpForward judges the
target through the effective selector under a second 60 second timeout;
BidirectionalUdpForward judges its single target; MultidirectionalUdpForward
takes the selector's default decision, warning and closing when it is Block. -/
def process_stream (env : Env) (client_proxy_selector : ClientProxySelector) :
    Except IOError Unit × List Event :=
  if 60 < env.server_setup_secs then
    (.error { kind := .timedOut, msg := "server setup timed out" }, [])
  else
    match env.server_setup with
    | .error e => (.error { kind := e.kind, msg := "failed to setup server stream" }, [])
    | .ok (.tcpForward remote_location _ override_proxy_provider
        connection_success_response initial_remote_data) =>
      let selected := effective_selector override_proxy_provider client_proxy_selector
      let cs := setup_client_stream env selected remote_location
      if 60 < env.client_setup_secs then
        (.error { kind := .timedOut, msg := "client setup timed out" }, [.serverShutdown])
      else
        (match cs.1 with
         | .ok none => (.ok (), cs.2 ++ [.serverShutdown])
         | .error e =>
           (.error { kind := e.kind, msg := "failed to setup client stream" },
            cs.2 ++ [.serverShutdown])
         | .ok (some _) =>
           let tail := tcp_forward_bridge env connection_success_response initial_remote_data
           (tail.1, cs.2 ++ tail.2))
    | .ok (.bidirectionalUdpForward remote_location) =>
      (match client_proxy_selector.judge remote_location with
       | .error e => (.error e, [.judgeCalled remote_location])
       | .ok (.allow _ _) =>
         (match env.resolve_result with
          | .error e => (.error e, [.judgeCalled remote_location])
          | .ok _ =>
            match env.configure_udp with
            | .error e => (.error e, [.judgeCalled remote_location])
            | .ok _ =>
              match env.udp_connect with
              | .error e => (.error e, [.judgeCalled remote_location, .udpSocketConfigured])
              | .ok _ =>
                (env.copy_result,
                 [.judgeCalled remote_location, .udpSocketConfigured, .udpSocketConnected,
                  .copyBidirectionalMessage]))
       | .ok .block => (.ok (), [.judgeCalled remote_location]))
    | .ok (.multidirectionalUdpForward _) =>
      (match client_proxy_selector.default_decision with
       | .allow _ _ =>
         (match env.configure_udp with
          | .error e => (.error e, [.defaultDecisionCalled])
          | .ok _ =>
            (env.copy_result,
             [.defaultDecisionCalled, .udpSocketConfigured, .copyMultidirectionalMessage]))
       | .block => (.ok (), [.defaultDecisionCalled, .warnLogged]))

/-- The default rule as it stands after validate_rule_config has run over the
injected direct_allow_rule: the Allow action's OneOrSome::One selection has
been stored back as OneOrSome::Some by replace_one_or_some_groups. -/
def validatedDefaultRule : RuleConfig :=
  { masks := .one NetLocationMask.ANY
    action := .allow none (.some [.config ClientConfig.default]) }

/-- The ClientConfigGroup entry names of a parsed document, in order. -/
def clientEntryNames (cfgs : List Config) : List String :=
  cfgs.filterMap fun c =>
    match c with
    | .clientConfigGroup name _ => some name
    | _ => none

/-- The RuleConfigGroup entry names of a parsed document, in order. -/
def ruleEntryNames (cfgs : List Config) : List String :=
  cfgs.filterMap fun c =>
    match c with
    | .ruleConfigGroup name _ => some name
    | _ => none

/-- The client group names load_configs registers, in registration order: the
seeded built-in direct group followed by each ClientConfigGroup entry name. -/
def clientGroupNames (cfgs : List Config) : List String :=
  "direct" :: clientEntryNames cfgs

/-- The rule group names load_configs registers, in registration order: the
seeded built-in allow-all-direct and block-all groups followed by each
RuleConfigGroup entry name. -/
def ruleGroupNames (cfgs : List Config) : List String :=
  "allow-all-direct" :: "block-all" :: ruleEntryNames cfgs

/-- Concrete parsed document used to instantiate the load_configs theorems: a
client group, a rule group referring to it, and a server whose rule list
refers to the rule group. -/
def exampleConfigs : List Config :=
  [ .clientConfigGroup "g1" (.one ClientConfig.default),
    .ruleConfigGroup "r1"
      (.one { masks := .one NetLocationMask.ANY
              action := .allow none (.one (.groupName "g1")) }),
    .serverConfig
      { bind_location := .address { host := .ip 2130706433, port := 8080 }
        protocol := .http none none
        transport := .tcp
        tcp_settings := none
        quic_settings := none
        rules := .one (.groupName "r1") } ]

/-- Concrete selector whose every decision is Block, used to instantiate the
supervisor theorems. -/
def exampleBlockSelector : ClientProxySelector :=
  { judge := fun _ => .ok .block
    default_decision := .block }

/-- Concrete environment whose handshake yields a MultidirectionalUdpForward
setup result, with every external call succeeding. -/
def exampleMultiEnv : Env :=
  { server_setup_secs := 0
    server_setup := .ok (.multidirectionalUdpForward false)
    client_setup_secs := 0
    connect_result := .ok ()
    resolve_result := .ok 0
    configure_udp := .ok ()
    udp_connect := .ok ()
    write_response := .ok ()
    write_initial_data := .ok ()
    copy_result := .ok () }

/-- Concrete environment whose handshake yields a TcpForward setup result to
a fixed target, with every external call succeeding. -/
def exampleTcpEnv : Env :=
  { server_setup_secs := 0
    server_setup := .ok (.tcpForward { host := .ip 167772161, port := 22 } false
      .unspecified none none)
    client_setup_secs := 0
    connect_result := .ok ()
    resolve_result := .ok 0
    configure_udp := .ok ()
    udp_connect := .ok ()
    write_response := .ok ()
    write_initial_data := .ok ()
    copy_result := .ok () }

/-! ## Basic computation lemmas -/

@[simp]
theorem RResult.bind_ok {α β : Type} (a : α) (f : α → RResult β) :
    (RResult.ok a >>= f) = f a := rfl

@[simp]
theorem RResult.bind_err {α β : Type} (e : IOError) (f : α → RResult β) :
    ((RResult.err e : RResult α) >>= f) = RResult.err e := rfl

@[simp]
theorem RResult.bind_panicked {α β : Type} (m : String) (f : α → RResult β) :
    ((RResult.panicked m : RResult α) >>= f) = RResult.panicked m := rfl

@[simp]
theorem RResult.pure_eq_ok {α : Type} (a : α) : (pure a : RResult α) = RResult.ok a := rfl

@[simp]
theorem liftE_ok {α : Type} (a : α) : liftE (Except.ok a : Except IOError α) = .ok a := rfl

@[simp]
theorem liftE_error {α : Type} (e : IOError) :
    liftE (Except.error e : Except IOError α) = .err e := rfl

theorem RResult.bind_eq_ok_iff {α β : Type} {x : RResult α} {f : α → RResult β} {b : β} :
    (x >>= f) = .ok b ↔ ∃ a, x = .ok a ∧ f a = .ok b := by
  cases x <;> simp

theorem liftE_eq_ok {α : Type} {x : Except IOError α} {a : α} :
    liftE x = .ok a ↔ x = .ok a := by
  cases x <;> simp

theorem exceptBind_eq_ok_iff {ε α β : Type} {x : Except ε α} {f : α → Except ε β}
    {b : β} : (x >>= f) = .ok b ↔ ∃ a, x = .ok a ∧ f a = .ok b := by
  cases x <;> simp [Bind.bind, Except.bind]

theorem mapMR_ok_iff {α β : Type} (f : α → RResult β) :
    ∀ (l : List α) (out : List β),
    mapMR f l = .ok out ↔ List.Forall₂ (fun a b => f a = .ok b) l out := by
  intro l
  induction l with
  | nil =>
    intro out
    constructor
    · intro h
      simp only [mapMR, RResult.ok.injEq] at h
      simp [← h]
    · intro h
      cases h
      rfl
  | cons a rest ih =>
    intro out
    simp only [mapMR, RResult.bind_eq_ok_iff, RResult.pure_eq_ok, RResult.ok.injEq,
      List.forall₂_cons_left_iff, ih]
    constructor
    · rintro ⟨b, hb, rest2, hrest, hout⟩
      exact ⟨b, rest2, hb, hrest, hout.symm⟩
    · rintro ⟨b, rest2, hb, hrest, hout⟩
      exact ⟨b, hb, rest2, hrest, hout.symm⟩

theorem forall₂_mem_right {α β : Type} {R : α → β → Prop} :
    ∀ {l : List α} {u : List β}, List.Forall₂ R l u → ∀ b ∈ u, ∃ a ∈ l, R a b := by
  intro l u h
  induction h with
  | nil => simp
  | cons hR _ ih =>
    intro b hb
    rcases List.mem_cons.mp hb with hb | hb
    · exact ⟨_, List.mem_cons_self _ _, hb ▸ hR⟩
    · rcases ih b hb with ⟨a, ha, hab⟩
      exact ⟨a, List.mem_cons_of_mem _ ha, hab⟩

/-! ## Characterization of ConfigSelection::replace -/

theorem replace_characterization {α : Type} (l : List (ConfigSelection α))
    (groups : List (String × List α)) :
    (firstMissingGroup l groups = none →
      ConfigSelection.replace l groups = .ok (specExpand l groups)) ∧
    (∀ g, firstMissingGroup l groups = some g →
      ConfigSelection.replace l groups =
        .error { kind := .invalidInput, msg := "No such client group: " ++ g }) := by
  induction l with
  | nil =>
    simp [ConfigSelection.replace, firstMissingGroup, specExpand]
  | cons s rest ih =>
    cases s with
    | config c =>
      refine ⟨fun h => ?_, fun g h => ?_⟩
      · rw [firstMissingGroup] at h
        rw [ConfigSelection.replace, ih.1 h]
        simp [specExpand]
      · rw [firstMissingGroup] at h
        rw [ConfigSelection.replace, ih.2 g h]
        rfl
    | groupName g0 =>
      refine ⟨fun h => ?_, fun g h => ?_⟩
      · rw [firstMissingGroup] at h
        cases hg : alistGet groups g0 with
        | none => rw [hg] at h; exact absurd h (by simp)
        | some configs =>
          rw [hg] at h
          rw [ConfigSelection.replace]
          rw [hg, ih.1 h]
          simp [specExpand, hg]
      · rw [firstMissingGroup] at h
        cases hg : alistGet groups g0 with
        | none =>
          rw [hg] at h
          cases h
          rw [ConfigSelection.replace, hg]
        | some configs =>
          rw [hg] at h
          rw [ConfigSelection.replace, hg, ih.2 g h]
          rfl

/-- C2: group expansion replaces each GroupName selection with the named
group's configs inlined at its position in the group's order, keeps every
inline Config selection unchanged in the surrounding order, and fails with an
InvalidInput error naming the first group that the group map does not
define. -/
theorem replace_expands_groups {α : Type} (l : List (ConfigSelection α))
    (groups : List (String × List α)) :
    match firstMissingGroup l groups with
    | none => ConfigSelection.replace l groups = .ok (specExpand l groups)
    | some g => ConfigSelection.replace l groups =
        .error { kind := .invalidInput, msg := "No such client group: " ++ g } := by
  cases h : firstMissingGroup l groups with
  | none => exact (replace_characterization l groups).1 h
  | some g => exact (replace_characterization l groups).2 g h

/-! ## Supervisor claims -/

/-- C5: on a MultidirectionalUdpForward setup result the supervisor takes the
connect decision from default_decision and never judges a per-message target,
and when that default decision is Block it logs a warning and returns success
without configuring any egress UDP socket. -/
theorem multidirectional_uses_default_decision (env : Env) (sel : ClientProxySelector)
    (nif : Bool)
    (hsetup : env.server_setup = .ok (.multidirectionalUdpForward nif))
    (hsecs : env.server_setup_secs ≤ 60) :
    Event.defaultDecisionCalled ∈ (process_stream env sel).2 ∧
    (∀ loc, Event.judgeCalled loc ∉ (process_stream env sel).2) ∧
    (sel.default_decision = .block →
      (process_stream env sel).1 = .ok () ∧
      Event.warnLogged ∈ (process_stream env sel).2 ∧
      Event.udpSocketConfigured ∉ (process_stream env sel).2) := by
  have hlt : ¬ 60 < env.server_setup_secs := Nat.not_lt.mpr hsecs
  cases hd : sel.default_decision with
  | allow p r =>
    cases hc : env.configure_udp with
    | ok u =>
      simp [process_stream, hsetup, hlt, hd, hc]
    | error e =>
      simp [process_stream, hsetup, hlt, hd, hc]
  | block =>
    simp [process_stream, hsetup, hlt, hd]

/-- Closed instance of the C5 theorem at a concrete environment and a
concrete all-blocking selector. -/
theorem multidirectional_uses_default_decision_witness :
    Event.defaultDecisionCalled ∈ (process_stream exampleMultiEnv exampleBlockSelector).2 ∧
    (∀ loc, Event.judgeCalled loc ∉ (process_stream exampleMultiEnv exampleBlockSelector).2) ∧
    (exampleBlockSelector.default_decision = .block →
      (process_stream exampleMultiEnv exampleBlockSelector).1 = .ok () ∧
      Event.warnLogged ∈ (process_stream exampleMultiEnv exampleBlockSelector).2 ∧
      Event.udpSocketConfigured ∉ (process_stream exampleMultiEnv exampleBlockSelector).2) :=
  multidirectional_uses_default_decision exampleMultiEnv exampleBlockSelector false
    rfl (by decide)

/-- C6: on a TcpForward setup result whose effective selector judges the
target Block, the supervisor never attempts an upstream connection, shuts the
origin stream down, and returns success. -/
theorem tcp_forward_block_no_connect (env : Env) (sel : ClientProxySelector)
    (remote : NetLocation) (nif : Bool) (opp : NoneOrOne ClientProxySelector)
    (resp ird : Option (List Nat))
    (hsetup : env.server_setup = .ok (.tcpForward remote nif opp resp ird))
    (hsecs : env.server_setup_secs ≤ 60)
    (hcsecs : env.client_setup_secs ≤ 60)
    (hjudge : (effective_selector opp sel).judge remote = .ok .block) :
    (process_stream env sel).1 = .ok () ∧
    Event.serverShutdown ∈ (process_stream env sel).2 ∧
    (∀ p l, Event.connectCalled p l ∉ (process_stream env sel).2) := by
  have hlt : ¬ 60 < env.server_setup_secs := Nat.not_lt.mpr hsecs
  have hclt : ¬ 60 < env.client_setup_secs := Nat.not_lt.mpr hcsecs
  simp [process_stream, hsetup, hlt, hclt, setup_client_stream, hjudge]

/-- Closed instance of the C6 theorem at a concrete environment and a
concrete all-blocking selector. -/
theorem tcp_forward_block_no_connect_witness :
    (process_stream exampleTcpEnv exampleBlockSelector).1 = .ok () ∧
    Event.serverShutdown ∈ (process_stream exampleTcpEnv exampleBlockSelector).2 ∧
    (∀ p l, Event.connectCalled p l ∉ (process_stream exampleTcpEnv exampleBlockSelector).2) :=
  tcp_forward_block_no_connect exampleTcpEnv exampleBlockSelector
    { host := .ip 167772161, port := 22 } false .unspecified none none
    rfl (by decide) (by decide) rfl

/-- C7: the supervisor wraps server-stream setup and client-stream setup in
60 second timeouts; when the server deadline elapses it returns a TimedOut
error (owning no stream any more), and when the client deadline elapses it
returns a TimedOut error after shutting down the origin stream it still
owns. -/
theorem setup_timeouts_timed_out (env : Env) (sel : ClientProxySelector) :
    (60 < env.server_setup_secs →
      process_stream env sel =
        (.error { kind := .timedOut, msg := "server setup timed out" }, [])) ∧
    (∀ remote nif opp resp ird,
      env.server_setup = .ok (.tcpForward remote nif opp resp ird) →
      env.server_setup_secs ≤ 60 → 60 < env.client_setup_secs →
      ∃ e, (process_stream env sel).1 = .error e ∧ e.kind = .timedOut ∧
        Event.serverShutdown ∈ (process_stream env sel).2) := by
  constructor
  · intro h
    simp [process_stream, h]
  · intro remote nif opp resp ird hsetup hsecs hcsecs
    have hlt : ¬ 60 < env.server_setup_secs := Nat.not_lt.mpr hsecs
    refine ⟨{ kind := .timedOut, msg := "client setup timed out" }, ?_⟩
    simp [process_stream, hsetup, hlt, hcsecs]

/-! ## Client config validation -/

/-- C10: validate_client_config rejects exactly the configs with TCP settings
but non-TCP transport, QUIC settings but non-QUIC transport, or a bind
interface off the Linux family, always with an InvalidInput error; in
particular QUIC transport without QUIC settings passes. -/
theorem validate_client_config_characterization (is_linux_family : Bool)
    (cc : ClientConfig) :
    ((∃ e, validate_client_config is_linux_family cc = .err e) ↔
      ((cc.transport ≠ Transport.tcp ∧ cc.tcp_settings.isSome = true) ∨
       (cc.transport ≠ Transport.quic ∧ cc.quic_settings.isSome = true) ∨
       (is_linux_family = false ∧ cc.bind_interface.is_one = true))) ∧
    (∀ e, validate_client_config is_linux_family cc = .err e →
      e.kind = ErrorKind.invalidInput) ∧
    validate_client_config is_linux_family
      { ClientConfig.default with transport := Transport.quic } = .ok () := by
  refine ⟨?_, ?_, ?_⟩
  · unfold validate_client_config
    split_ifs with h1 h2 h3
    · exact iff_of_true ⟨_, rfl⟩ (Or.inl h1)
    · exact iff_of_true ⟨_, rfl⟩ (Or.inr (Or.inl h2))
    · refine iff_of_true ⟨_, rfl⟩ (Or.inr (Or.inr ?_))
      exact ⟨by simpa using h3.1, h3.2⟩
    · refine iff_of_false ?_ ?_
      · rintro ⟨e, he⟩
        exact he.elim
      · rintro (h | h | h)
        · exact h1 h
        · exact h2 h
        · exact h3 ⟨by simp [h.1], h.2⟩
  · unfold validate_client_config
    split_ifs
    all_goals intro e he
    · cases he; rfl
    · cases he; rfl
    · cases he; rfl
    · exact he.elim
  · cases is_linux_family <;> rfl

/-! ## Server config validation: inversion and transport coherence -/

theorem validate_server_config_ok_inv {p : Bool} {sc sc' : ServerConfig}
    {cg : ClientGroups} {rg : RuleGroups}
    (h : validate_server_config p sc cg rg = .ok sc') :
    ∃ rules1 rules3 protocol2,
      ConfigSelection.replace_none_or_some_groups sc.rules rg = .ok rules1 ∧
      validateRuleSelections p cg
        (if rules1.is_empty then direct_allow_rule else rules1) = .ok rules3 ∧
      validate_server_proxy_config p cg rg sc.protocol = .ok protocol2 ∧
      sc' = { sc with rules := rules3, protocol := protocol2 } ∧
      ¬(sc.transport ≠ Transport.tcp ∧ sc.tcp_settings.isSome = true) ∧
      ¬(sc.transport = Transport.quic ∧ sc.quic_settings.isNone = true) ∧
      ¬(sc.transport ≠ Transport.quic ∧ sc.quic_settings.isSome = true) ∧
      ¬(sc.bind_location.isPath = true ∧ sc.transport ≠ Transport.tcp) := by
  unfold validate_server_config at h
  split_ifs at h with h1 h2 h3 h4
  rcases RResult.bind_eq_ok_iff.mp h with ⟨rules1, hr1, h⟩
  rcases RResult.bind_eq_ok_iff.mp h with ⟨rules3, hr3, h⟩
  rcases RResult.bind_eq_ok_iff.mp h with ⟨protocol2, hp2, h⟩
  simp only [RResult.pure_eq_ok, RResult.ok.injEq] at h
  exact ⟨rules1, rules3, protocol2, liftE_eq_ok.mp hr1, hr3, hp2, h.symm,
    h1, h2, h3, h4⟩

theorem coherent_of_checks {sc : ServerConfig}
    (h1 : ¬(sc.transport ≠ Transport.tcp ∧ sc.tcp_settings.isSome = true))
    (h2 : ¬(sc.transport = Transport.quic ∧ sc.quic_settings.isNone = true))
    (h3 : ¬(sc.transport ≠ Transport.quic ∧ sc.quic_settings.isSome = true))
    (h4 : ¬(sc.bind_location.isPath = true ∧ sc.transport ≠ Transport.tcp)) :
    transportCoherent sc := by
  unfold transportCoherent
  cases hq : sc.quic_settings with
  | none =>
    simp only [hq, Option.isNone_none, Option.isSome_none] at h2 ⊢
    refine ⟨by tauto, fun ht => by tauto, fun hp => by tauto⟩
  | some q =>
    simp only [hq, Option.isNone_some, Option.isSome_some] at h3 ⊢
    refine ⟨by tauto, fun ht => by tauto, fun hp => by tauto⟩

/-- C4: every ServerConfig accepted by load_configs satisfies transport
coherence (QUIC transport exactly when quic_settings is present, TCP settings
only with TCP transport, path binds only with TCP transport), and validation
rejects any incoherent ServerConfig with an InvalidInput error. -/
theorem server_transport_coherence (p : Bool) (cfgs : List Config)
    (scs : List ServerConfig) (sc : ServerConfig) (cg : ClientGroups)
    (rg : RuleGroups) :
    (load_configs p cfgs = .ok scs → ∀ sc2 ∈ scs, transportCoherent sc2) ∧
    (¬transportCoherent sc →
      ∃ e, validate_server_config p sc cg rg = .err e ∧
        e.kind = ErrorKind.invalidInput) := by
  constructor
  · intro hload sc2 hmem
    unfold load_configs at hload
    rcases RResult.bind_eq_ok_iff.mp hload with ⟨r, _, hmap⟩
    rcases forall₂_mem_right ((mapMR_ok_iff _ _ _).mp hmap) sc2 hmem
      with ⟨sc0, _, hv⟩
    rcases validate_server_config_ok_inv hv with
      ⟨_, _, _, _, _, _, hsc2, c1, c2, c3, c4⟩
    subst hsc2
    exact coherent_of_checks c1 c2 c3 c4
  · intro hnc
    unfold validate_server_config
    split_ifs with h1 h2 h3 h4
    · exact ⟨_, rfl, rfl⟩
    · exact ⟨_, rfl, rfl⟩
    · exact ⟨_, rfl, rfl⟩
    · exact ⟨_, rfl, rfl⟩
    · exact absurd (coherent_of_checks h1 h2 h3 h4) hnc

/-! ## No GroupName survives validation -/

theorem specExpand_all_config {α : Type} (l : List (ConfigSelection α))
    (groups : List (String × List α)) :
    ∀ s ∈ specExpand l groups, ∃ c, s = ConfigSelection.config c := by
  intro s hs
  unfold specExpand at hs
  rcases List.mem_flatMap.mp hs with ⟨t, _, hst⟩
  cases t with
  | config c =>
    simp only [List.mem_singleton] at hst
    exact ⟨c, hst⟩
  | groupName g =>
    rcases List.mem_map.mp hst with ⟨c, _, hc⟩
    exact ⟨c, hc.symm⟩

theorem replace_ok_all_config {α : Type} {l : List (ConfigSelection α)}
    {groups : List (String × List α)} {out : List (ConfigSelection α)}
    (h : ConfigSelection.replace l groups = .ok out) :
    ∀ s ∈ out, ∃ c, s = ConfigSelection.config c := by
  cases hm : firstMissingGroup l groups with
  | none =>
    rw [(replace_characterization l groups).1 hm] at h
    cases h
    exact specExpand_all_config l groups
  | some g =>
    rw [(replace_characterization l groups).2 g hm] at h
    exact absurd h (by simp)

theorem validateClientSelection_ok_inv {p : Bool} {s s' : ConfigSelection ClientConfig}
    (h : validateClientSelection p s = .ok s') :
    ∃ c, s = ConfigSelection.config c ∧ s' = ConfigSelection.config c := by
  cases s with
  | config c =>
    unfold validateClientSelection at h
    rcases RResult.bind_eq_ok_iff.mp h with ⟨u, _, h⟩
    simp only [RResult.pure_eq_ok, RResult.ok.injEq] at h
    exact ⟨c, rfl, h.symm⟩
  | groupName g =>
    exact absurd h (by simp [validateClientSelection])

theorem validate_rule_config_ok_inline {p : Bool} {r r' : RuleConfig}
    {cg : ClientGroups} (h : validate_rule_config p r cg = .ok r') :
    ruleSelectionInline (.config r') = true := by
  unfold validate_rule_config at h
  cases hact : r.action with
  | block =>
    rw [hact] at h
    simp only [RResult.pure_eq_ok, RResult.ok.injEq] at h
    subst h
    simp [ruleSelectionInline, hact]
  | allow oa cps =>
    rw [hact] at h
    rcases RResult.bind_eq_ok_iff.mp h with ⟨replaced, hrep, h⟩
    rw [liftE_eq_ok] at hrep
    unfold ConfigSelection.replace_one_or_some_groups at hrep
    rcases exceptBind_eq_ok_iff.mp hrep with ⟨ret, hret, hrep⟩
    simp only [pure, Except.pure, Except.ok.injEq] at hrep
    subst hrep
    rcases RResult.bind_eq_ok_iff.mp h with ⟨checked, hchk, h⟩
    simp only [RResult.pure_eq_ok, RResult.ok.injEq] at h
    subst h
    unfold validateClientSelections at hchk
    rcases RResult.bind_eq_ok_iff.mp hchk with ⟨l2, hl2, hchk⟩
    simp only [RResult.pure_eq_ok, RResult.ok.injEq] at hchk
    subst hchk
    simp only [ruleSelectionInline, OneOrSome.toList, List.all_eq_true]
    intro s hs
    rcases forall₂_mem_right ((mapMR_ok_iff _ _ _).mp hl2) s hs with ⟨a, _, ha⟩
    rcases validateClientSelection_ok_inv ha with ⟨c, _, hc⟩
    simp [hc, clientSelectionInline]

theorem validateRuleSelection_ok_inline {p : Bool} {cg : ClientGroups}
    {s s' : ConfigSelection RuleConfig}
    (h : validateRuleSelection p cg s = .ok s') :
    ruleSelectionInline s' = true := by
  cases s with
  | config r =>
    unfold validateRuleSelection at h
    rcases RResult.bind_eq_ok_iff.mp h with ⟨r', hr, h⟩
    simp only [RResult.pure_eq_ok, RResult.ok.injEq] at h
    subst h
    exact validate_rule_config_ok_inline hr
  | groupName g =>
    exact absurd h (by simp [validateRuleSelection])

theorem validateRuleSelections_ok_inline {p : Bool} {cg : ClientGroups}
    {ns ns' : NoneOrSome (ConfigSelection RuleConfig)}
    (h : validateRuleSelections p cg ns = .ok ns') :
    ∀ s ∈ ns'.toList, ruleSelectionInline s = true := by
  cases ns with
  | unspecified =>
    unfold validateRuleSelections at h
    simp only [RResult.pure_eq_ok, RResult.ok.injEq] at h
    subst h
    simp [NoneOrSome.toList]
  | one a =>
    unfold validateRuleSelections at h
    rcases RResult.bind_eq_ok_iff.mp h with ⟨b, hb, h⟩
    simp only [RResult.pure_eq_ok, RResult.ok.injEq] at h
    subst h
    intro s hs
    simp only [NoneOrSome.toList, List.mem_singleton] at hs
    subst hs
    exact validateRuleSelection_ok_inline hb
  | some l =>
    unfold validateRuleSelections at h
    rcases RResult.bind_eq_ok_iff.mp h with ⟨l2, hl2, h⟩
    simp only [RResult.pure_eq_ok, RResult.ok.injEq] at h
    subst h
    intro s hs
    simp only [NoneOrSome.toList] at hs
    rcases forall₂_mem_right ((mapMR_ok_iff _ _ _).mp hl2) s hs with ⟨a, _, ha⟩
    exact validateRuleSelection_ok_inline ha

/-! Unfolding equations for the mutually recursive validators and predicates,
stated per constructor (the compiler encodes these definitions through the
recursor of the nested inductive family, so the equations are proved by
definitional unfolding here once and used by rewriting below). -/

@[simp]
theorem vspc_http_eq (p : Bool) (cg : ClientGroups) (rg : RuleGroups)
    (u pw : Option String) :
    validate_server_proxy_config p cg rg (.http u pw) = pure (.http u pw) := rfl

@[simp]
theorem vspc_socks_eq (p : Bool) (cg : ClientGroups) (rg : RuleGroups)
    (u pw : Option String) :
    validate_server_proxy_config p cg rg (.socks u pw) = pure (.socks u pw) := rfl

@[simp]
theorem vspc_shadowsocks_eq (p : Bool) (cg : ClientGroups) (rg : RuleGroups)
    (c : ShadowsocksConfig) :
    validate_server_proxy_config p cg rg (.shadowsocks c) = pure (.shadowsocks c) := rfl

@[simp]
theorem vspc_snell_eq (p : Bool) (cg : ClientGroups) (rg : RuleGroups)
    (c : ShadowsocksConfig) :
    validate_server_proxy_config p cg rg (.snell c) = pure (.snell c) := rfl

@[simp]
theorem vspc_vless_eq (p : Bool) (cg : ClientGroups) (rg : RuleGroups)
    (uid : String) :
    validate_server_proxy_config p cg rg (.vless uid) = pure (.vless uid) := rfl

@[simp]
theorem vspc_trojan_eq (p : Bool) (cg : ClientGroups) (rg : RuleGroups)
    (pw : String) (ss : Option ShadowsocksConfig) :
    validate_server_proxy_config p cg rg (.trojan pw ss) = pure (.trojan pw ss) := rfl

@[simp]
theorem vspc_vmess_eq (p : Bool) (cg : ClientGroups) (rg : RuleGroups)
    (c uid : String) (fa ue : Bool) :
    validate_server_proxy_config p cg rg (.vmess c uid fa ue) =
      pure (.vmess c uid fa ue) := rfl

@[simp]
theorem vspc_portForward_eq (p : Bool) (cg : ClientGroups) (rg : RuleGroups)
    (ts : OneOrSome NetLocation) :
    validate_server_proxy_config p cg rg (.portForward ts) = pure (.portForward ts) := rfl

@[simp]
theorem vspc_tls_none_eq (p : Bool) (cg : ClientGroups) (rg : RuleGroups)
    (st : List (String × TlsServerConfig)) :
    validate_server_proxy_config p cg rg (.tls st none) = (do
      let st2 ← validateTlsTargets p cg rg st
      pure (ServerProxyConfig.tls st2 none)) := rfl

@[simp]
theorem vspc_tls_some_eq (p : Bool) (cg : ClientGroups) (rg : RuleGroups)
    (st : List (String × TlsServerConfig)) (t : TlsServerConfig) :
    validate_server_proxy_config p cg rg (.tls st (some t)) = (do
      let st2 ← validateTlsTargets p cg rg st
      let t2 ← validateTlsTarget p cg rg t
      pure (ServerProxyConfig.tls st2 (some t2))) := rfl

@[simp]
theorem vspc_ws_one_eq (p : Bool) (cg : ClientGroups) (rg : RuleGroups)
    (t : WebsocketServerConfig) :
    validate_server_proxy_config p cg rg (.websocket (.one t)) = (do
      let t2 ← validateWsTarget p cg rg t
      pure (ServerProxyConfig.websocket (.one t2))) := rfl

@[simp]
theorem vspc_ws_some_eq (p : Bool) (cg : ClientGroups) (rg : RuleGroups)
    (l : List WebsocketServerConfig) :
    validate_server_proxy_config p cg rg (.websocket (.some l)) = (do
      let l2 ← validateWsTargets p cg rg l
      pure (ServerProxyConfig.websocket (.some l2))) := rfl

@[simp]
theorem vtls_targets_nil_eq (p : Bool) (cg : ClientGroups) (rg : RuleGroups) :
    validateTlsTargets p cg rg [] = pure [] := rfl

@[simp]
theorem vtls_targets_cons_eq (p : Bool) (cg : ClientGroups) (rg : RuleGroups)
    (name : String) (t : TlsServerConfig) (rest : List (String × TlsServerConfig)) :
    validateTlsTargets p cg rg ((name, t) :: rest) = (do
      let t2 ← validateTlsTarget p cg rg t
      let rest2 ← validateTlsTargets p cg rg rest
      pure ((name, t2) :: rest2)) := rfl

@[simp]
theorem vtls_target_mk_eq (p : Bool) (cg : ClientGroups) (rg : RuleGroups)
    (cert key : String) (alpn : NoneOrSome String) (protocol : ServerProxyConfig)
    (override_rules : NoneOrSome (ConfigSelection RuleConfig)) :
    validateTlsTarget p cg rg (.mk cert key alpn protocol override_rules) = (do
      let p2 ← validate_server_proxy_config p cg rg protocol
      let or1 ← liftE (ConfigSelection.replace_none_or_some_groups override_rules rg)
      let or2 ← validateRuleSelections p cg or1
      pure (TlsServerConfig.mk cert key alpn p2 or2)) := rfl

@[simp]
theorem vws_targets_nil_eq (p : Bool) (cg : ClientGroups) (rg : RuleGroups) :
    validateWsTargets p cg rg [] = pure [] := rfl

@[simp]
theorem vws_targets_cons_eq (p : Bool) (cg : ClientGroups) (rg : RuleGroups)
    (t : WebsocketServerConfig) (rest : List WebsocketServerConfig) :
    validateWsTargets p cg rg (t :: rest) = (do
      let t2 ← validateWsTarget p cg rg t
      let rest2 ← validateWsTargets p cg rg rest
      pure (t2 :: rest2)) := rfl

@[simp]
theorem vws_target_mk_eq (p : Bool) (cg : ClientGroups) (rg : RuleGroups)
    (mp : Option String) (mh : Option (List (String × String)))
    (protocol : ServerProxyConfig) (pt : WebsocketPingType)
    (override_rules : NoneOrSome (ConfigSelection RuleConfig)) :
    validateWsTarget p cg rg (.mk mp mh protocol pt override_rules) = (do
      let p2 ← validate_server_proxy_config p cg rg protocol
      let or1 ← liftE (ConfigSelection.replace_none_or_some_groups override_rules rg)
      let or2 ← validateRuleSelections p cg or1
      pure (WebsocketServerConfig.mk mp mh p2 pt or2)) := rfl

@[simp]
theorem spcAllInline_tls_none_eq (st : List (String × TlsServerConfig)) :
    spcAllInline (.tls st none) = tlsTargetsAllInline st := by
  show (tlsTargetsAllInline st && true) = tlsTargetsAllInline st
  exact Bool.and_true _

@[simp]
theorem spcAllInline_tls_some_eq (st : List (String × TlsServerConfig))
    (t : TlsServerConfig) :
    spcAllInline (.tls st (some t)) =
      (tlsTargetsAllInline st && tlsTargetAllInline t) := rfl

@[simp]
theorem spcAllInline_ws_one_eq (t : WebsocketServerConfig) :
    spcAllInline (.websocket (.one t)) = wsTargetAllInline t := rfl

@[simp]
theorem spcAllInline_ws_some_eq (l : List WebsocketServerConfig) :
    spcAllInline (.websocket (.some l)) = wsTargetsAllInline l := rfl

@[simp]
theorem tlsTargetsAllInline_nil_eq : tlsTargetsAllInline [] = true := rfl

@[simp]
theorem tlsTargetsAllInline_cons_eq (name : String) (t : TlsServerConfig)
    (rest : List (String × TlsServerConfig)) :
    tlsTargetsAllInline ((name, t) :: rest) =
      (tlsTargetAllInline t && tlsTargetsAllInline rest) := rfl

@[simp]
theorem tlsTargetAllInline_mk_eq (cert key : String) (alpn : NoneOrSome String)
    (protocol : ServerProxyConfig)
    (override_rules : NoneOrSome (ConfigSelection RuleConfig)) :
    tlsTargetAllInline (.mk cert key alpn protocol override_rules) =
      (spcAllInline protocol && override_rules.toList.all ruleSelectionInline) := rfl

@[simp]
theorem wsTargetsAllInline_nil_eq : wsTargetsAllInline [] = true := rfl

@[simp]
theorem wsTargetsAllInline_cons_eq (t : WebsocketServerConfig)
    (rest : List WebsocketServerConfig) :
    wsTargetsAllInline (t :: rest) =
      (wsTargetAllInline t && wsTargetsAllInline rest) := rfl

@[simp]
theorem wsTargetAllInline_mk_eq (mp : Option String)
    (mh : Option (List (String × String))) (protocol : ServerProxyConfig)
    (pt : WebsocketPingType)
    (override_rules : NoneOrSome (ConfigSelection RuleConfig)) :
    wsTargetAllInline (.mk mp mh protocol pt override_rules) =
      (spcAllInline protocol && override_rules.toList.all ruleSelectionInline) := rfl

mutual

theorem vspc_ok_all_inline : ∀ (p : Bool) (cg : ClientGroups) (rg : RuleGroups)
    (x x' : ServerProxyConfig),
    validate_server_proxy_config p cg rg x = .ok x' → spcAllInline x' = true
  | p, cg, rg, .tls sni_targets default_target, x', h => by
    cases default_target with
    | none =>
      rw [vspc_tls_none_eq] at h
      rcases RResult.bind_eq_ok_iff.mp h with ⟨st2, hst2, h⟩
      simp only [RResult.pure_eq_ok, RResult.ok.injEq] at h
      subst h
      have h1 := vtls_targets_ok p cg rg sni_targets st2 hst2
      rw [spcAllInline_tls_none_eq]
      exact h1
    | some t =>
      rw [vspc_tls_some_eq] at h
      rcases RResult.bind_eq_ok_iff.mp h with ⟨st2, hst2, h⟩
      rcases RResult.bind_eq_ok_iff.mp h with ⟨t2, ht2, h⟩
      simp only [RResult.pure_eq_ok, RResult.ok.injEq] at h
      subst h
      have h1 := vtls_targets_ok p cg rg sni_targets st2 hst2
      have h2 := vtls_target_ok p cg rg t t2 ht2
      rw [spcAllInline_tls_some_eq, h1, h2]
      rfl
  | p, cg, rg, .websocket targets, x', h => by
    cases targets with
    | one t =>
      rw [vspc_ws_one_eq] at h
      rcases RResult.bind_eq_ok_iff.mp h with ⟨t2, ht2, h⟩
      simp only [RResult.pure_eq_ok, RResult.ok.injEq] at h
      subst h
      have h1 := vws_target_ok p cg rg t t2 ht2
      rw [spcAllInline_ws_one_eq]
      exact h1
    | some l =>
      rw [vspc_ws_some_eq] at h
      rcases RResult.bind_eq_ok_iff.mp h with ⟨l2, hl2, h⟩
      simp only [RResult.pure_eq_ok, RResult.ok.injEq] at h
      subst h
      have h1 := vws_targets_ok p cg rg l l2 hl2
      rw [spcAllInline_ws_some_eq]
      exact h1
  | p, cg, rg, .http u pw, x', h => by
    rw [vspc_http_eq] at h
    simp only [RResult.pure_eq_ok, RResult.ok.injEq] at h
    subst h
    rfl
  | p, cg, rg, .socks u pw, x', h => by
    rw [vspc_socks_eq] at h
    simp only [RResult.pure_eq_ok, RResult.ok.injEq] at h
    subst h
    rfl
  | p, cg, rg, .shadowsocks c, x', h => by
    rw [vspc_shadowsocks_eq] at h
    simp only [RResult.pure_eq_ok, RResult.ok.injEq] at h
    subst h
    rfl
  | p, cg, rg, .snell c, x', h => by
    rw [vspc_snell_eq] at h
    simp only [RResult.pure_eq_ok, RResult.ok.injEq] at h
    subst h
    rfl
  | p, cg, rg, .vless uid, x', h => by
    rw [vspc_vless_eq] at h
    simp only [RResult.pure_eq_ok, RResult.ok.injEq] at h
    subst h
    rfl
  | p, cg, rg, .trojan pw ss, x', h => by
    rw [vspc_trojan_eq] at h
    simp only [RResult.pure_eq_ok, RResult.ok.injEq] at h
    subst h
    rfl
  | p, cg, rg, .vmess c uid fa ue, x', h => by
    rw [vspc_vmess_eq] at h
    simp only [RResult.pure_eq_ok, RResult.ok.injEq] at h
    subst h
    rfl
  | p, cg, rg, .portForward ts, x', h => by
    rw [vspc_portForward_eq] at h
    simp only [RResult.pure_eq_ok, RResult.ok.injEq] at h
    subst h
    rfl

theorem vtls_targets_ok : ∀ (p : Bool) (cg : ClientGroups) (rg : RuleGroups)
    (ts ts' : List (String × TlsServerConfig)),
    validateTlsTargets p cg rg ts = .ok ts' → tlsTargetsAllInline ts' = true
  | p, cg, rg, [], ts', h => by
    rw [vtls_targets_nil_eq] at h
    simp only [RResult.pure_eq_ok, RResult.ok.injEq] at h
    subst h
    rfl
  | p, cg, rg, (name, t) :: rest, ts', h => by
    rw [vtls_targets_cons_eq] at h
    rcases RResult.bind_eq_ok_iff.mp h with ⟨t2, ht2, h⟩
    rcases RResult.bind_eq_ok_iff.mp h with ⟨rest2, hrest2, h⟩
    simp only [RResult.pure_eq_ok, RResult.ok.injEq] at h
    subst h
    have h1 := vtls_target_ok p cg rg t t2 ht2
    have h2 := vtls_targets_ok p cg rg rest rest2 hrest2
    rw [tlsTargetsAllInline_cons_eq, h1, h2]
    rfl

theorem vtls_target_ok : ∀ (p : Bool) (cg : ClientGroups) (rg : RuleGroups)
    (t t' : TlsServerConfig),
    validateTlsTarget p cg rg t = .ok t' → tlsTargetAllInline t' = true
  | p, cg, rg, .mk cert key alpn protocol override_rules, t', h => by
    rw [vtls_target_mk_eq] at h
    rcases RResult.bind_eq_ok_iff.mp h with ⟨p2, hp2, h⟩
    rcases RResult.bind_eq_ok_iff.mp h with ⟨or1, hor1, h⟩
    rcases RResult.bind_eq_ok_iff.mp h with ⟨or2, hor2, h⟩
    simp only [RResult.pure_eq_ok, RResult.ok.injEq] at h
    subst h
    have h1 := vspc_ok_all_inline p cg rg protocol p2 hp2
    have h2 := validateRuleSelections_ok_inline hor2
    rw [tlsTargetAllInline_mk_eq, h1, List.all_eq_true.mpr h2]
    rfl

theorem vws_targets_ok : ∀ (p : Bool) (cg : ClientGroups) (rg : RuleGroups)
    (ts ts' : List WebsocketServerConfig),
    validateWsTargets p cg rg ts = .ok ts' → wsTargetsAllInline ts' = true
  | p, cg, rg, [], ts', h => by
    rw [vws_targets_nil_eq] at h
    simp only [RResult.pure_eq_ok, RResult.ok.injEq] at h
    subst h
    rfl
  | p, cg, rg, t :: rest, ts', h => by
    rw [vws_targets_cons_eq] at h
    rcases RResult.bind_eq_ok_iff.mp h with ⟨t2, ht2, h⟩
    rcases RResult.bind_eq_ok_iff.mp h with ⟨rest2, hrest2, h⟩
    simp only [RResult.pure_eq_ok, RResult.ok.injEq] at h
    subst h
    have h1 := vws_target_ok p cg rg t t2 ht2
    have h2 := vws_targets_ok p cg rg rest rest2 hrest2
    rw [wsTargetsAllInline_cons_eq, h1, h2]
    rfl

theorem vws_target_ok : ∀ (p : Bool) (cg : ClientGroups) (rg : RuleGroups)
    (t t' : WebsocketServerConfig),
    validateWsTarget p cg rg t = .ok t' → wsTargetAllInline t' = true
  | p, cg, rg, .mk mp mh protocol pt override_rules, t', h => by
    rw [vws_target_mk_eq] at h
    rcases RResult.bind_eq_ok_iff.mp h with ⟨p2, hp2, h⟩
    rcases RResult.bind_eq_ok_iff.mp h with ⟨or1, hor1, h⟩
    rcases RResult.bind_eq_ok_iff.mp h with ⟨or2, hor2, h⟩
    simp only [RResult.pure_eq_ok, RResult.ok.injEq] at h
    subst h
    have h1 := vspc_ok_all_inline p cg rg protocol p2 hp2
    have h2 := validateRuleSelections_ok_inline hor2
    rw [wsTargetAllInline_mk_eq, h1, List.all_eq_true.mpr h2]
    rfl

end

theorem validate_server_config_ok_all_inline {p : Bool} {sc sc' : ServerConfig}
    {cg : ClientGroups} {rg : RuleGroups}
    (h : validate_server_config p sc cg rg = .ok sc') :
    serverConfigAllInline sc' = true := by
  rcases validate_server_config_ok_inv h with
    ⟨rules1, rules3, protocol2, _, hr3, hp2, hsc, _, _, _, _⟩
  subst hsc
  have h1 := validateRuleSelections_ok_inline hr3
  have h2 := vspc_ok_all_inline p cg rg sc.protocol protocol2 hp2
  show (rules3.toList.all ruleSelectionInline && spcAllInline protocol2) = true
  rw [List.all_eq_true.mpr h1, h2]
  rfl

theorem load_configs_ok_forall {p : Bool} {cfgs : List Config}
    {scs : List ServerConfig} (hload : load_configs p cfgs = .ok scs) :
    ∀ sc ∈ scs, ∃ sc0 cg rg, validate_server_config p sc0 cg rg = .ok sc := by
  intro sc hmem
  unfold load_configs at hload
  rcases RResult.bind_eq_ok_iff.mp hload with ⟨r, _, hmap⟩
  rcases forall₂_mem_right ((mapMR_ok_iff _ _ _).mp hmap) sc hmem with ⟨sc0, _, hv⟩
  exact ⟨sc0, r.1, r.2.1, hv⟩

/-- C1: after a successful load_configs, every ConfigSelection reachable in
the returned ServerConfig values (rule lists, TLS and WebSocket override
rules at any nesting depth, and rule client proxies) is the inline Config
variant; no GroupName remains. -/
theorem load_configs_selections_inlined (p : Bool) (cfgs : List Config)
    (scs : List ServerConfig) (hload : load_configs p cfgs = .ok scs) :
    ∀ sc ∈ scs, serverConfigAllInline sc = true := by
  intro sc hmem
  rcases load_configs_ok_forall hload sc hmem with ⟨sc0, cg, rg, hv⟩
  exact validate_server_config_ok_all_inline hv

/-- Closed instance of the C1 theorem at a concrete parsed document that
exercises both client group and rule group expansion. -/
theorem load_configs_selections_inlined_witness :
    ∃ scs, load_configs true exampleConfigs = .ok scs ∧
      ∀ sc ∈ scs, serverConfigAllInline sc = true := by
  obtain ⟨scs, h⟩ : ∃ scs, load_configs true exampleConfigs = .ok scs := ⟨_, rfl⟩
  exact ⟨scs, h, load_configs_selections_inlined true exampleConfigs scs h⟩

/-! ## Non-empty rules and the injected default rule -/

theorem validateRuleSelections_ok_length {p : Bool} {cg : ClientGroups}
    {ns ns' : NoneOrSome (ConfigSelection RuleConfig)}
    (h : validateRuleSelections p cg ns = .ok ns') :
    ns'.toList.length = ns.toList.length := by
  cases ns with
  | unspecified =>
    unfold validateRuleSelections at h
    simp only [RResult.pure_eq_ok, RResult.ok.injEq] at h
    subst h
    rfl
  | one a =>
    unfold validateRuleSelections at h
    rcases RResult.bind_eq_ok_iff.mp h with ⟨b, _, h⟩
    simp only [RResult.pure_eq_ok, RResult.ok.injEq] at h
    subst h
    rfl
  | some l =>
    unfold validateRuleSelections at h
    rcases RResult.bind_eq_ok_iff.mp h with ⟨l2, hl2, h⟩
    simp only [RResult.pure_eq_ok, RResult.ok.injEq] at h
    subst h
    exact (List.Forall₂.length_eq ((mapMR_ok_iff _ _ _).mp hl2)).symm

theorem validate_server_config_ok_rules_nonempty {p : Bool} {sc sc' : ServerConfig}
    {cg : ClientGroups} {rg : RuleGroups}
    (h : validate_server_config p sc cg rg = .ok sc') :
    sc'.rules.toList ≠ [] := by
  rcases validate_server_config_ok_inv h with
    ⟨rules1, rules3, protocol2, _, hr3, _, hsc, _, _, _, _⟩
  subst hsc
  show rules3.toList ≠ []
  have hlen := validateRuleSelections_ok_length hr3
  intro hnil
  rw [hnil] at hlen
  by_cases he : rules1.is_empty = true
  · rw [if_pos he] at hlen
    simp [direct_allow_rule, NoneOrSome.toList] at hlen
  · rw [if_neg he] at hlen
    unfold NoneOrSome.is_empty at he
    rw [List.isEmpty_iff] at he
    exact he (List.eq_nil_of_length_eq_zero hlen.symm)

theorem validate_rule_config_default (p : Bool) (cg : ClientGroups) :
    validate_rule_config p RuleConfig.default cg = .ok validatedDefaultRule := by
  cases p <;> rfl

/-- C3: after load_configs every accepted server has a non-empty rules list,
and a server whose rule list is empty after group expansion gets exactly the
single default rule (mask ANY, Allow through the default direct client
config; its selection list is stored back as OneOrSome::Some by the client
proxy expansion). -/
theorem validated_rules_nonempty_with_default (p : Bool) (cfgs : List Config)
    (scs : List ServerConfig) (sc sc' : ServerConfig) (cg : ClientGroups)
    (rg : RuleGroups) (rules1 : NoneOrSome (ConfigSelection RuleConfig)) :
    (load_configs p cfgs = .ok scs → ∀ s ∈ scs, s.rules.toList ≠ []) ∧
    (ConfigSelection.replace_none_or_some_groups sc.rules rg = .ok rules1 →
      rules1.is_empty = true →
      validate_server_config p sc cg rg = .ok sc' →
      sc'.rules = .one (.config validatedDefaultRule)) := by
  constructor
  · intro hload s hmem
    rcases load_configs_ok_forall hload s hmem with ⟨sc0, cg0, rg0, hv⟩
    exact validate_server_config_ok_rules_nonempty hv
  · intro hrep hemp hv
    rcases validate_server_config_ok_inv hv with
      ⟨rules1b, rules3, protocol2, hr1, hr3, _, hsc, _, _, _, _⟩
    rw [hrep, Except.ok.injEq] at hr1
    subst hr1
    rw [if_pos hemp] at hr3
    unfold direct_allow_rule at hr3
    unfold validateRuleSelections at hr3
    rcases RResult.bind_eq_ok_iff.mp hr3 with ⟨b, hb, hr3⟩
    simp only [RResult.pure_eq_ok, RResult.ok.injEq] at hr3
    subst hr3
    unfold validateRuleSelection at hb
    rcases RResult.bind_eq_ok_iff.mp hb with ⟨r2, hr2, hb⟩
    simp only [RResult.pure_eq_ok, RResult.ok.injEq] at hb
    subst hb
    rw [validate_rule_config_default, RResult.ok.injEq] at hr2
    subst hr2
    rw [hsc]

/-! ## The start_tcp_server prologue cannot panic -/

theorem inline_selection_is_config {s : ConfigSelection RuleConfig}
    (h : ruleSelectionInline s = true) : ∃ c, s = ConfigSelection.config c := by
  cases s with
  | config c => exact ⟨c, rfl⟩
  | groupName g => simp [ruleSelectionInline] at h

theorem mapMR_unwrap_ok {l : List (ConfigSelection RuleConfig)}
    (h : ∀ s ∈ l, ∃ c, s = ConfigSelection.config c) :
    ∃ rs, mapMR ConfigSelection.unwrap_config l = .ok rs ∧ rs.length = l.length := by
  induction l with
  | nil => exact ⟨[], rfl, rfl⟩
  | cons s rest ih =>
    rcases h s (List.mem_cons_self _ _) with ⟨c, rfl⟩
    rcases ih (fun t ht => h t (List.mem_cons_of_mem _ ht)) with ⟨rs, hrs, hlen⟩
    refine ⟨c :: rs, ?_, by simp [hlen]⟩
    simp [mapMR, ConfigSelection.unwrap_config, hrs]

/-- C9: for every ServerConfig produced by a successful load_configs, the
rule-handling prologue of start_tcp_server neither trips its non-empty
assertion nor panics in unwrap_config: it returns the unwrapped rule list. -/
theorem start_tcp_server_prologue_no_panic (p : Bool) (cfgs : List Config)
    (scs : List ServerConfig) (hload : load_configs p cfgs = .ok scs) :
    ∀ sc ∈ scs, ∃ rules, start_tcp_server_prologue sc = .ok rules := by
  intro sc hmem
  rcases load_configs_ok_forall hload sc hmem with ⟨sc0, cg, rg, hv⟩
  have hinline := validate_server_config_ok_all_inline hv
  have hne := validate_server_config_ok_rules_nonempty hv
  unfold serverConfigAllInline at hinline
  rcases (Bool.and_eq_true _ _).mp hinline with ⟨hrules, _⟩
  have hconf : ∀ s ∈ sc.rules.toList, ∃ c, s = ConfigSelection.config c :=
    fun s hs => inline_selection_is_config (List.all_eq_true.mp hrules s hs)
  rcases mapMR_unwrap_ok hconf with ⟨rs, hrs, hlen⟩
  refine ⟨rs, ?_⟩
  unfold start_tcp_server_prologue
  rw [hrs]
  have hrsne : rs ≠ [] := by
    intro hnil
    rw [hnil] at hlen
    exact hne (List.eq_nil_of_length_eq_zero hlen.symm)
  simp [List.isEmpty_iff, hrsne]

/-- Closed instance of the C9 theorem at the concrete example document. -/
theorem start_tcp_server_prologue_no_panic_witness :
    ∃ scs, load_configs true exampleConfigs = .ok scs ∧
      ∀ sc ∈ scs, ∃ rules, start_tcp_server_prologue sc = .ok rules := by
  obtain ⟨scs, h⟩ : ∃ scs, load_configs true exampleConfigs = .ok scs := ⟨_, rfl⟩
  exact ⟨scs, h, start_tcp_server_prologue_no_panic true exampleConfigs scs h⟩

/-! ## Group registration and duplicate names -/

theorem alistInsert_fst {α : Type} (m : List (String × α)) (k : String) (v : α) :
    (alistInsert m k v).1 = alistGet m k := by
  induction m with
  | nil => rfl
  | cons p rest ih =>
    obtain ⟨k2, v2⟩ := p
    unfold alistInsert alistGet
    split_ifs with h
    · rfl
    · exact ih

theorem alistGet_eq_none_iff {α : Type} (m : List (String × α)) (k : String) :
    alistGet m k = none ↔ k ∉ m.map Prod.fst := by
  induction m with
  | nil => simp [alistGet]
  | cons p rest ih =>
    obtain ⟨k2, v2⟩ := p
    unfold alistGet
    split_ifs with h
    · subst h
      simp
    · simp only [List.map_cons, List.mem_cons, not_or, ih]
      constructor
      · intro hnm
        exact ⟨fun hkk => h hkk.symm, hnm⟩
      · intro hnm
        exact hnm.2

theorem alistInsert_keys {α : Type} {m : List (String × α)} {k : String} (v : α)
    (h : alistGet m k = none) :
    (alistInsert m k v).2.map Prod.fst = m.map Prod.fst ++ [k] := by
  induction m with
  | nil => rfl
  | cons p rest ih =>
    obtain ⟨k2, v2⟩ := p
    unfold alistGet at h
    unfold alistInsert
    split_ifs at h ⊢ with hk
    · simp only [List.map_cons, List.cons_append, List.cons.injEq, true_and]
      exact ih h

theorem registerConfigs_char : ∀ (cfgs : List Config) (cg : ClientGroups)
    (rg : RuleGroups) (scs : List ServerConfig),
    (cg.map Prod.fst).Nodup → (rg.map Prod.fst).Nodup →
    (match registerConfigs cfgs cg rg scs with
     | .ok out =>
       (out.1.map Prod.fst).Nodup ∧ (out.2.1.map Prod.fst).Nodup ∧
       (cg.map Prod.fst ++ clientEntryNames cfgs).Nodup ∧
       (rg.map Prod.fst ++ ruleEntryNames cfgs).Nodup
     | .err e =>
       e.kind = ErrorKind.invalidInput ∧
       ¬((cg.map Prod.fst ++ clientEntryNames cfgs).Nodup ∧
         (rg.map Prod.fst ++ ruleEntryNames cfgs).Nodup)
     | .panicked _ => False) := by
  intro cfgs
  induction cfgs with
  | nil =>
    intro cg rg scs hcg hrg
    simpa [registerConfigs, clientEntryNames, ruleEntryNames] using ⟨hcg, hrg, hcg, hrg⟩
  | cons c rest ih =>
    intro cg rg scs hcg hrg
    cases c with
    | serverConfig sc =>
      have h2 := ih cg rg (scs ++ [sc]) hcg hrg
      simpa [registerConfigs, clientEntryNames, ruleEntryNames,
        List.filterMap_cons] using h2
    | clientConfigGroup name proxies =>
      have hfst := alistInsert_fst cg name proxies.toList
      cases hk : alistGet cg name with
      | some v =>
        rw [hk] at hfst
        simp only [registerConfigs, hfst, Option.isSome_some, if_true]
        refine ⟨trivial, ?_⟩
        have hmem : name ∈ cg.map Prod.fst := by
          by_contra hnm
          rw [← alistGet_eq_none_iff] at hnm
          rw [hnm] at hk
          exact Option.noConfusion hk
        rintro ⟨hA, _⟩
        rw [List.nodup_append] at hA
        have hdisj := hA.2.2 hmem
        simp [clientEntryNames, List.filterMap_cons] at hdisj
      | none =>
        rw [hk] at hfst
        have hknodup : ((alistInsert cg name proxies.toList).2.map Prod.fst).Nodup := by
          rw [alistInsert_keys _ hk, List.nodup_append]
          refine ⟨hcg, List.nodup_singleton _, ?_⟩
          intro a ha hcon
          rw [List.mem_singleton] at hcon
          subst hcon
          exact (alistGet_eq_none_iff cg a).mp hk ha
        have h2 := ih (alistInsert cg name proxies.toList).2 rg scs hknodup hrg
        rw [alistInsert_keys _ hk] at h2
        simp only [registerConfigs, hfst, Option.isSome_none, Bool.false_eq_true,
          if_false, clientEntryNames, List.filterMap_cons]
        simp only [clientEntryNames] at h2
        simpa [List.append_assoc] using h2
    | ruleConfigGroup name rules =>
      have hfst := alistInsert_fst rg name rules.toList
      cases hk : alistGet rg name with
      | some v =>
        rw [hk] at hfst
        simp only [registerConfigs, hfst, Option.isSome_some, if_true]
        refine ⟨trivial, ?_⟩
        have hmem : name ∈ rg.map Prod.fst := by
          by_contra hnm
          rw [← alistGet_eq_none_iff] at hnm
          rw [hnm] at hk
          exact Option.noConfusion hk
        rintro ⟨_, hB⟩
        rw [List.nodup_append] at hB
        have hdisj := hB.2.2 hmem
        simp [ruleEntryNames, List.filterMap_cons] at hdisj
      | none =>
        rw [hk] at hfst
        have hknodup : ((alistInsert rg name rules.toList).2.map Prod.fst).Nodup := by
          rw [alistInsert_keys _ hk, List.nodup_append]
          refine ⟨hrg, List.nodup_singleton _, ?_⟩
          intro a ha hcon
          rw [List.mem_singleton] at hcon
          subst hcon
          exact (alistGet_eq_none_iff rg a).mp hk ha
        have h2 := ih cg (alistInsert rg name rules.toList).2 scs hcg hknodup
        rw [alistInsert_keys _ hk] at h2
        simp only [registerConfigs, hfst, Option.isSome_none, Bool.false_eq_true,
          if_false, ruleEntryNames, List.filterMap_cons]
        simp only [ruleEntryNames] at h2
        simpa [List.append_assoc] using h2

/-- C8: group registration in load_configs fails with an InvalidInput error
exactly when a client group or rule group name repeats within its map, the
seeded built-in names direct, allow-all-direct and block-all included; after
a successful registration the group maps hold pairwise distinct names, and a
duplicate makes the whole load fail with InvalidInput. -/
theorem duplicate_group_rejected (p : Bool) (cfgs : List Config) :
    ((∃ out, registerConfigs cfgs seededClientGroups seededRuleGroups [] = .ok out) ↔
      ((clientGroupNames cfgs).Nodup ∧ (ruleGroupNames cfgs).Nodup)) ∧
    (∀ out, registerConfigs cfgs seededClientGroups seededRuleGroups [] = .ok out →
      (out.1.map Prod.fst).Nodup ∧ (out.2.1.map Prod.fst).Nodup) ∧
    (∀ e, registerConfigs cfgs seededClientGroups seededRuleGroups [] = .err e →
      e.kind = ErrorKind.invalidInput) ∧
    (¬((clientGroupNames cfgs).Nodup ∧ (ruleGroupNames cfgs).Nodup) →
      ∃ e, load_configs p cfgs = .err e ∧ e.kind = ErrorKind.invalidInput) ∧
    (∃ e, load_configs p
        [Config.clientConfigGroup "direct" (.one ClientConfig.default)] = .err e ∧
      e.kind = ErrorKind.invalidInput) := by
  have hchar := registerConfigs_char cfgs seededClientGroups seededRuleGroups []
    (by decide) (by decide)
  have hconcrete : ∃ e, load_configs p
      [Config.clientConfigGroup "direct" (.one ClientConfig.default)] = .err e ∧
      e.kind = ErrorKind.invalidInput :=
    ⟨{ kind := .invalidInput, msg := "client group already exists: " ++ "direct" },
      rfl, rfl⟩
  cases hreg : registerConfigs cfgs seededClientGroups seededRuleGroups [] with
  | ok out =>
    rw [hreg] at hchar
    obtain ⟨h1, h2, h3, h4⟩ := hchar
    refine ⟨⟨fun _ => ⟨h3, h4⟩, fun _ => ⟨out, rfl⟩⟩, ?_, ?_, ?_, hconcrete⟩
    · intro out2 h
      rw [RResult.ok.injEq] at h
      subst h
      exact ⟨h1, h2⟩
    · intro e h
      exact absurd h (by simp)
    · intro hn
      exact absurd ⟨h3, h4⟩ hn
  | err e =>
    rw [hreg] at hchar
    obtain ⟨hkind, hnod⟩ := hchar
    refine ⟨⟨fun hex => ?_, fun hn => absurd hn hnod⟩, ?_, ?_, ?_, hconcrete⟩
    · rcases hex with ⟨out, hout⟩
      exact absurd hout (by simp)
    · intro out2 h
      exact absurd h (by simp)
    · intro e2 h
      rw [RResult.err.injEq] at h
      subst h
      exact hkind
    · intro hn
      refine ⟨e, ?_, hkind⟩
      unfold load_configs
      rw [hreg]
      rfl
  | panicked m =>
    rw [hreg] at hchar
    exact hchar.elim

end Shoes
